import Mathlib

/-!
Shallow embedding of the typed field-value comparison and diff engine of
`aliwork-helper` (`src/field.js`: `fieldValueEqualSingle`, `fieldValueDiff`,
`getFieldTypeById`, `getFieldDataTypeById`; `src/utils.js`: `isEmpty`).

JavaScript values are modelled by the inductive `JSValue`.  The `num`
constructor carries a non-NaN number (an integer suffices for every value the
library manipulates: epoch milliseconds, rates, counts); NaN has its own
constructor `nan` so that the `x === x → false` behaviour of NaN is kept.
Arrays and plain objects carry a reference tag `ref : Nat`; the modelling
convention is that distinct runtime objects carry distinct tags, so JavaScript
reference equality `===` on objects/arrays is equality of tags.  `Map`/`Set`
values never reach the comparator (field values are JSON-like) and are not
modelled.  A JavaScript function that can throw a runtime `TypeError` is
embedded with an `Option` result, `none` standing for the thrown error.
-/

inductive JSValue : Type where
  | undef : JSValue
  | null : JSValue
  | nan : JSValue
  | num : Int → JSValue
  | str : String → JSValue
  | bool : Bool → JSValue
  | arr : Nat → List JSValue → JSValue
  | obj : Nat → List (String × JSValue) → JSValue
deriving Repr

/-- JavaScript truthiness of a value: `undefined`, `null`, `NaN`, `0`, `""`
and `false` are falsy, every other value (arrays and objects included) is
truthy. -/
def truthy : JSValue → Bool
  | .undef => false
  | .null => false
  | .nan => false
  | .num n => n != 0
  | .str s => s != ""
  | .bool b => b
  | .arr _ _ => true
  | .obj _ _ => true

/-- JavaScript strict equality `===`.  Primitives compare by value, except
that NaN is not equal to anything (NaN included); arrays and objects compare
by reference tag; values of different runtime types are unequal. -/
def jsEq : JSValue → JSValue → Bool
  | .undef, .undef => true
  | .null, .null => true
  | .num a, .num b => a == b
  | .str a, .str b => a == b
  | .bool a, .bool b => a == b
  | .arr r _, .arr s _ => r == s
  | .obj r _, .obj s _ => r == s
  | _, _ => false

/-- Embeds `isEmpty` from `src/utils.js`: the empty string, `null`,
`undefined` and NaN are empty; an array is empty when it has no elements; a
plain object is empty when it has no own keys; every other value (numbers,
booleans) is non-empty.  (The source also inspects `Map`/`Set`/`WeakMap`/
`WeakSet`, which are outside the JSON-like value model.) -/
def isEmpty : JSValue → Bool
  | .str s => s == ""
  | .null => true
  | .undef => true
  | .nan => true
  | .num _ => false
  | .bool _ => false
  | .arr _ xs => xs.isEmpty
  | .obj _ kvs => kvs.isEmpty

/-- JavaScript property read `v.key` on a base value that is not
`null`/`undefined`: own-key lookup on a plain object, `undefined` on every
other value (primitives and arrays have none of the keys the comparator
reads).  The comparator only reads properties of values that already passed
the non-empty check, so the base is never `null`/`undefined` there. -/
def getAttr (v : JSValue) (key : String) : JSValue :=
  match v with
  | .obj _ kvs =>
    match kvs.find? (fun kv => kv.1 == key) with
    | some kv => kv.2
    | none => .undef
  | _ => (.undef)

/-- JavaScript indexed read `v[i]` for a numeric index: throws (`none`) on
`null`/`undefined`, yields the element or `undefined` on an array, the
one-character string or `undefined` on a string, an own-key lookup of the
decimal key on a plain object, and `undefined` on the remaining
primitives. -/
def jsIndex (v : JSValue) (i : Nat) : Option JSValue :=
  match v with
  | .undef => none
  | .null => none
  | .arr _ xs => some (xs.getD i .undef)
  | .str s =>
    some (match s.data.get? i with
          | some c => .str (String.mk [c])
          | none => .undef)
  | .obj _ kvs =>
    some (match kvs.find? (fun kv => kv.1 == toString i) with
          | some kv => kv.2
          | none => .undef)
  | _ => some (.undef)

/-- Embeds the `regionsA.every((regionId, index) => regionId === regionsB[index])`
loop of the `address` branch: walks the elements of `regionsA` with their
index, reading `regionsB[index]` (which can throw) and comparing with `===`;
stops at the first `false` like `Array.prototype.every`. -/
def regionEvery (regions : List JSValue) (regionsB : JSValue) (i : Nat) :
    Option Bool :=
  match regions with
  | [] => some true
  | r :: rest =>
    match jsIndex regionsB i with
    | none => none
    | some rb =>
      if jsEq r rb then regionEvery rest regionsB (i + 1) else some false

/-- Embeds `fieldValueEqualSingle` from `src/field.js`.  Empty values (per
`isEmpty`) short-circuit: two empties are equal, an empty and a non-empty are
not.  Otherwise the switch on `fieldType` applies: `countrySelect`/`employee`/
`departmentSelect` compare `.value`, `image`/`attachment` compare `.url`,
`associationForm` compares `.instanceId`, `cascadeDate` compares `.start` and
`.end`, `address` compares `.address` and runs `every` over `valA.regionIds`
(a `TypeError`, modelled `none`, when that is not an array), and every other
type falls back to `valA === valB`. -/
def fieldValueEqualSingle (fieldType : String) (valA valB : JSValue) :
    Option Bool :=
  if isEmpty valA && isEmpty valB then
    some true
  else if (!isEmpty valA && isEmpty valB) || (!isEmpty valB && isEmpty valA) then
    some false
  else if fieldType == "countrySelect" || fieldType == "employee"
      || fieldType == "departmentSelect" then
    some (jsEq (getAttr valA "value") (getAttr valB "value"))
  else if fieldType == "image" || fieldType == "attachment" then
    some (jsEq (getAttr valA "url") (getAttr valB "url"))
  else if fieldType == "associationForm" then
    some (jsEq (getAttr valA "instanceId") (getAttr valB "instanceId"))
  else if fieldType == "cascadeDate" then
    some (jsEq (getAttr valA "start") (getAttr valB "start")
          && jsEq (getAttr valA "end") (getAttr valB "end"))
  else if fieldType == "address" then
    match getAttr valA "regionIds" with
    | .arr _ regions =>
      match regionEvery regions (getAttr valB "regionIds") 0 with
      | none => none
      | some regionEqual =>
        some (jsEq (getAttr valA "address") (getAttr valB "address")
              && regionEqual)
    | _ => none
  else
    some (jsEq valA valB)

/-- Does `pat` occur at the start of `s`? -/
def matchesAt (pat s : List Char) : Bool :=
  match pat, s with
  | [], _ => true
  | _ :: _, [] => false
  | p :: ps, c :: cs => p == c && matchesAt ps cs

/-- Character-list worker for `replaceFirst`: drops the first occurrence of
`pat`. -/
def replaceFirstChars (pat : List Char) : List Char → List Char
  | [] => []
  | c :: cs =>
    if matchesAt pat (c :: cs) then (c :: cs).drop pat.length
    else c :: replaceFirstChars pat cs

/-- Replaces the first occurrence of `pat` in `s` by the empty string, the
behaviour of JavaScript `s.replace(pat, "")` with a string pattern. -/
def replaceFirst (s pat : String) : String :=
  String.mk (replaceFirstChars pat.data s.data)

/-- Character-list worker for `splitHead`: the characters before the first
separator. -/
def headBeforeSep (sep : Char) : List Char → List Char
  | [] => []
  | c :: cs => if c == sep then [] else c :: headBeforeSep sep cs

/-- The first element of JavaScript `s.split(sep)` for a one-character
separator: everything before the first occurrence of `sep` (the whole string
when `sep` does not occur). -/
def splitHead (s : String) (sep : Char) : String :=
  String.mk (headBeforeSep sep s.data)

/-- Embeds `getFieldTypeById` from `src/field.js`: `undefined` (`none`) on a
falsy id, otherwise the part of the id before the first `_` with the first
occurrence of `"Field"` removed.  (The source's `if (!type) { type === "text"; }`
is a no-op comparison and is omitted.) -/
def getFieldTypeById (fieldId : String) : Option String :=
  if fieldId == "" then none
  else some (replaceFirst (splitHead fieldId (Char.ofNat 95)) "Field")

/-- Embeds `getFieldDataTypeById` from `src/field.js`: `undefined` (`none`)
on a falsy id, otherwise the data type of the field type obtained from
`getFieldTypeById`, defaulting to `"string"` for unrecognized types. -/
def getFieldDataTypeById (fieldId : String) (multiple : Bool) : Option String :=
  if fieldId == "" then none
  else
    let fieldType := (getFieldTypeById fieldId).getD ""
    some (if fieldType == "text" || fieldType == "textarea"
            || fieldType == "radio" || fieldType == "select"
            || fieldType == "cascadeSelect" || fieldType == "digitalSignature"
          then "string"
          else if fieldType == "number" || fieldType == "rate"
            || fieldType == "date" then "number"
          else if fieldType == "cascadeDate" || fieldType == "address"
          then "object"
          else if fieldType == "checkbox" || fieldType == "multiSelect"
            || fieldType == "countrySelect" || fieldType == "image"
            || fieldType == "attachment" || fieldType == "departmentSelect"
            || fieldType == "associationForm" then "array"
          else if fieldType == "employee"
          then (if multiple then "array" else "object")
          else "string")

/-- The array-branch test of `fieldValueDiff`:
`getFieldDataTypeById(fieldType) === "array" || fieldType === "employee"`. -/
def seqShaped (fieldType : String) : Bool :=
  getFieldDataTypeById fieldType false == some "array" || fieldType == "employee"

/-- The sequence coercion of `fieldValueDiff`: `val || []` followed by
`Array.isArray` wrapping.  A falsy value becomes the empty sequence, a truthy
array keeps its elements, any other truthy value becomes a one-element
sequence. -/
def coerceSeq (v : JSValue) : List JSValue :=
  if truthy v then
    match v with
    | .arr _ xs => xs
    | w => [w]
  else []

/-- JavaScript `Array.prototype.find` with a predicate that can throw:
returns the first element on which the predicate yields `true` (as
`some (some x)`), `some none` (`undefined`) when none does, and `none` when
the predicate throws first. -/
def jsFind (p : JSValue → Option Bool) : List JSValue → Option (Option JSValue)
  | [] => some none
  | x :: xs =>
    match p x with
    | none => none
    | some true => some (some x)
    | some false => jsFind p xs

/-- One direction of the array diff of `fieldValueDiff`: the `reduce` that
keeps each `current` element of `source` unless
`target.find((item) => fieldValueEqualSingle(fieldType, item, current))`
yields a truthy element (`if (match)` tests the truthiness of the found
element, not mere existence). -/
def diffPart (fieldType : String) (source target : List JSValue) :
    Option (List JSValue) :=
  match source with
  | [] => some []
  | current :: rest =>
    match jsFind (fun item => fieldValueEqualSingle fieldType item current)
        target with
    | none => none
    | some m =>
      match diffPart fieldType rest target with
      | none => none
      | some coll =>
        some (if truthy (m.getD .undef) then coll else current :: coll)

/-- The `diff` member of a `fieldValueDiff` result. -/
structure ArrayDiff : Type where
  added : List JSValue
  removed : List JSValue
deriving Repr

/-- A `fieldValueDiff` result: `new` and `old` hold the raw inputs,
`isEqual` the verdict, and `diff` is populated only on the array branch. -/
structure DiffResult : Type where
  new : JSValue
  old : JSValue
  isEqual : Bool
  diff : Option ArrayDiff
deriving Repr

/-- Embeds `fieldValueDiff` from `src/field.js`.  When the field's data type
is `"array"` or the type is `employee`, both inputs are coerced to sequences
and `added`/`removed` are computed by the two `reduce`/`find` passes, with
`isEqual` true exactly when both are empty; otherwise `isEqual` comes from
`fieldValueEqualSingle` and `diff` stays absent. -/
def fieldValueDiff (fieldType : String) (newVal oldVal : JSValue) :
    Option DiffResult :=
  if getFieldDataTypeById fieldType false == some "array"
      || fieldType == "employee" then
    let arrayNewVal := coerceSeq newVal
    let arrayOldVal := coerceSeq oldVal
    match diffPart fieldType arrayNewVal arrayOldVal with
    | none => none
    | some added =>
      match diffPart fieldType arrayOldVal arrayNewVal with
      | none => none
      | some removed =>
        some { new := newVal, old := oldVal,
               isEqual := added.length == 0 && removed.length == 0,
               diff := some { added := added, removed := removed } }
  else
    match fieldValueEqualSingle fieldType newVal oldVal with
    | none => none
    | some equal =>
      some { new := newVal, old := oldVal, isEqual := equal, diff := none }

/-- The emptiness class named by the specification: `undefined`, `null`, the
empty string, NaN, an empty sequence, or an empty mapping. -/
def emptySpec (v : JSValue) : Bool :=
  match v with
  | .undef => true
  | .null => true
  | .nan => true
  | .str s => s == ""
  | .arr _ xs => xs.isEmpty
  | .obj _ kvs => kvs.isEmpty
  | _ => false

/-- Is the value an array? -/
def JSValue.isArr : JSValue → Bool
  | .arr _ _ => true
  | _ => false

/-- The address-equality rule as the specification words it: equal `address`
attributes and `regionIds` sequences of the same length with equal elements
at every position. -/
def addressEqualSpec (a b : JSValue) : Bool :=
  jsEq (getAttr a "address") (getAttr b "address") &&
  (match getAttr a "regionIds", getAttr b "regionIds" with
   | .arr _ xs, .arr _ ys =>
     xs.length == ys.length &&
     ((List.range xs.length).all fun i =>
       jsEq (xs.getD i .undef) (ys.getD i .undef))
   | _, _ => false)

/-- On the modelled value domain the source's `isEmpty` coincides with the
specification's emptiness class. -/
theorem isEmpty_eq_emptySpec (v : JSValue) : isEmpty v = emptySpec v := by
  cases v <;> rfl

/-- `fieldValueEqualSingle` never throws for a type other than `address`:
the only `none` branch is the `every` call on a non-array `regionIds`. -/
theorem eqSingle_isSome_of_ne_address (t : String) (h : t ≠ "address")
    (a b : JSValue) : (fieldValueEqualSingle t a b).isSome = true := by
  have ht : (t == "address") = false := beq_eq_false_iff_ne.mpr h
  unfold fieldValueEqualSingle
  split
  · rfl
  split
  · rfl
  split
  · rfl
  split
  · rfl
  split
  · rfl
  split
  · rfl
  rw [if_neg (by simp [ht])]
  rfl

/-- The index walk of the `address` branch never throws when the compared
`regionIds` is an array. -/
theorem regionEvery_isSome (rs : List JSValue) (r : Nat) (ys : List JSValue)
    (i : Nat) : (regionEvery rs (.arr r ys) i).isSome = true := by
  induction rs generalizing i with
  | nil => rfl
  | cons x rest ih =>
    simp only [regionEvery, jsIndex]
    split
    · exact ih (i + 1)
    · rfl

/-- C1: for every field type, two empty inputs (undefined, null, the empty
string, NaN, an empty sequence, or an empty mapping) compare equal, and an
empty input compares unequal to any non-empty input, before any
type-specific rule is consulted. -/
theorem empty_equivalence_eqSingle (t : String) (a b : JSValue) :
    (emptySpec a = true → emptySpec b = true →
      fieldValueEqualSingle t a b = some true) ∧
    (emptySpec a = true → emptySpec b = false →
      fieldValueEqualSingle t a b = some false) ∧
    (emptySpec a = false → emptySpec b = true →
      fieldValueEqualSingle t a b = some false) := by
  refine ⟨fun ha hb => ?_, fun ha hb => ?_, fun ha hb => ?_⟩ <;>
    simp [fieldValueEqualSingle, isEmpty_eq_emptySpec, ha, hb]

/-- Witness for C1: an empty and a non-empty text value compare unequal. -/
theorem empty_equivalence_eqSingle_witness :
    fieldValueEqualSingle "text" JSValue.null (JSValue.str "x") = some false :=
  (empty_equivalence_eqSingle "text" JSValue.null (JSValue.str "x")).2.1
    rfl rfl

/-- C10: address equality is not symmetric — with equal `address` strings
and `regionIds` of the first record a strict prefix of the second's, the
comparison succeeds one way and fails the other (only the first record's
indices are checked). -/
theorem address_equality_asymmetric :
    isEmpty (JSValue.obj 1 [("address", JSValue.str "1 Main St"),
      ("regionIds", JSValue.arr 2 [JSValue.str "1"])]) = false ∧
    isEmpty (JSValue.obj 3 [("address", JSValue.str "1 Main St"),
      ("regionIds", JSValue.arr 4 [JSValue.str "1", JSValue.str "2"])]) = false ∧
    fieldValueEqualSingle "address"
      (JSValue.obj 1 [("address", JSValue.str "1 Main St"),
        ("regionIds", JSValue.arr 2 [JSValue.str "1"])])
      (JSValue.obj 3 [("address", JSValue.str "1 Main St"),
        ("regionIds", JSValue.arr 4 [JSValue.str "1", JSValue.str "2"])])
      = some true ∧
    fieldValueEqualSingle "address"
      (JSValue.obj 3 [("address", JSValue.str "1 Main St"),
        ("regionIds", JSValue.arr 4 [JSValue.str "1", JSValue.str "2"])])
      (JSValue.obj 1 [("address", JSValue.str "1 Main St"),
        ("regionIds", JSValue.arr 2 [JSValue.str "1"])])
      = some false :=
  ⟨rfl, rfl, rfl, rfl⟩

/-- Counterexample for C4: an address-typed record that is present and
non-empty but lacks `regionIds` makes the comparison throw (the `every` call
on `undefined`), so `fieldValueEqualSingle` is not total. -/
theorem eqSingle_address_throws :
    fieldValueEqualSingle "address"
      (JSValue.obj 1 [("address", JSValue.str "x")])
      (JSValue.obj 2 [("address", JSValue.str "x"),
        ("regionIds", JSValue.arr 3 [JSValue.str "1"])]) = none ∧
    isEmpty (JSValue.obj 1 [("address", JSValue.str "x")]) = false :=
  ⟨rfl, rfl⟩

/-- C4 (amended): `fieldValueEqualSingle` always returns a boolean for every
field type other than `address` (missing attributes propagate as `undefined`
compared against `undefined`); for `address` it also does whenever the
`regionIds` attributes of both inputs are sequences. -/
theorem eqSingle_total_amended (t : String) (a b : JSValue)
    (h : t ≠ "address" ∨ ∃ ia xs ib ys,
      getAttr a "regionIds" = JSValue.arr ia xs ∧
      getAttr b "regionIds" = JSValue.arr ib ys) :
    (fieldValueEqualSingle t a b).isSome = true := by
  rcases h with h | ⟨ia, xs, ib, ys, hra, hrb⟩
  · exact eqSingle_isSome_of_ne_address t h a b
  by_cases ht : t = "address"
  · subst ht
    unfold fieldValueEqualSingle
    split
    · rfl
    split
    · rfl
    rw [if_neg (by decide), if_neg (by decide), if_neg (by decide),
      if_neg (by decide), if_pos (by decide), hra, hrb]
    rcases Option.isSome_iff_exists.mp (regionEvery_isSome xs ib ys 0)
      with ⟨v, hv⟩
    simp [hv]
  · exact eqSingle_isSome_of_ne_address t ht a b

/-- Witness for C4 (amended): a non-address comparison on malformed records
(missing attributes) still returns a boolean. -/
theorem eqSingle_total_amended_witness :
    (fieldValueEqualSingle "employee" (JSValue.obj 1 [("name", JSValue.str "a")])
      (JSValue.obj 2 [("value", JSValue.str "100")])).isSome = true :=
  eqSingle_total_amended "employee" (JSValue.obj 1 [("name", JSValue.str "a")])
    (JSValue.obj 2 [("value", JSValue.str "100")]) (Or.inl (by decide))

/-- C9: for any field type without a specific rule — scalar types, the
sequence-shaped `checkbox`/`multiSelect`, and unrecognized strings — two
non-empty values compare by `===` on the raw values, without failing. -/
theorem default_branch_is_strict_eq (t : String) (a b : JSValue)
    (ht : t ∉ (["countrySelect", "employee", "departmentSelect", "image",
      "attachment", "associationForm", "cascadeDate", "address"] : List String))
    (ha : isEmpty a = false) (hb : isEmpty b = false) :
    fieldValueEqualSingle t a b = some (jsEq a b) := by
  simp only [List.mem_cons, List.mem_singleton, not_or] at ht
  obtain ⟨h1, h2, h3, h4, h5, h6, h7, h8⟩ := ht
  unfold fieldValueEqualSingle
  rw [if_neg (by simp [ha, hb]), if_neg (by simp [ha, hb]),
    if_neg (by simp [beq_eq_false_iff_ne.mpr h1, beq_eq_false_iff_ne.mpr h2,
      beq_eq_false_iff_ne.mpr h3]),
    if_neg (by simp [beq_eq_false_iff_ne.mpr h4, beq_eq_false_iff_ne.mpr h5]),
    if_neg (by simp [beq_eq_false_iff_ne.mpr h6]),
    if_neg (by simp [beq_eq_false_iff_ne.mpr h7]),
    if_neg (by simp [beq_eq_false_iff_ne.mpr h8.1])]

/-- Witness for C9: two non-empty checkbox arrays with equal elements but
different identities compare by reference and come out unequal. -/
theorem default_branch_is_strict_eq_witness :
    fieldValueEqualSingle "checkbox" (JSValue.arr 1 [JSValue.str "a"])
        (JSValue.arr 2 [JSValue.str "a"])
      = some (jsEq (JSValue.arr 1 [JSValue.str "a"])
          (JSValue.arr 2 [JSValue.str "a"])) :=
  default_branch_is_strict_eq "checkbox" (JSValue.arr 1 [JSValue.str "a"])
    (JSValue.arr 2 [JSValue.str "a"]) (by decide) rfl rfl

/-- The `address`-branch index walk over an array `regionIds` of the second
record computes the conjunction, over the indices of the first record's
array, of `===` comparisons at equal positions (offset by the start
index). -/
theorem regionEvery_arr_eq (ra : List JSValue) (r : Nat) (rb : List JSValue)
    (k : Nat) :
    regionEvery ra (.arr r rb) k =
      some ((List.range ra.length).all fun i =>
        jsEq (ra.getD i .undef) (rb.getD (k + i) .undef)) := by
  induction ra generalizing k with
  | nil => rfl
  | cons x rest ih =>
    simp only [regionEvery, jsIndex, List.length_cons, List.range_succ_eq_map,
      List.all_cons, List.all_map]
    cases hx : jsEq x (rb.getD k .undef) with
    | false =>
      rw [if_neg (by simp [hx])]
      simp only [List.getD_cons_zero, Nat.add_zero, hx, Bool.false_and]
    | true =>
      rw [if_pos (by simp [hx]), ih (k + 1)]
      simp only [hx, Bool.true_and, List.getD_cons_zero, List.getD_cons_succ,
        Function.comp_def, Nat.add_succ, Nat.succ_add, Nat.add_zero]

/-- Counterexample for C3: two non-empty address records with equal
`address` strings whose `regionIds` have different lengths (the first a
strict prefix of the second) are reported equal, though the claimed rule
(same length and equal elements at every position) is violated. -/
theorem address_rule_counterexample :
    fieldValueEqualSingle "address"
      (JSValue.obj 1 [("address", JSValue.str "x"),
        ("regionIds", JSValue.arr 2 [JSValue.str "7"])])
      (JSValue.obj 3 [("address", JSValue.str "x"),
        ("regionIds", JSValue.arr 4 [JSValue.str "7", JSValue.str "8"])])
      = some true ∧
    addressEqualSpec
      (JSValue.obj 1 [("address", JSValue.str "x"),
        ("regionIds", JSValue.arr 2 [JSValue.str "7"])])
      (JSValue.obj 3 [("address", JSValue.str "x"),
        ("regionIds", JSValue.arr 4 [JSValue.str "7", JSValue.str "8"])])
      = false :=
  ⟨rfl, rfl⟩

/-- C3 (amended): for non-empty address records whose `regionIds` are
sequences, equality holds iff the `address` strings are `===`-equal and
every element of the FIRST record's `regionIds` equals the element of the
second's at the same position — the second sequence may be longer, since
only the first record's indices are checked. -/
theorem address_rule_amended (a b : JSValue) (ia ib : Nat)
    (ra rb : List JSValue)
    (ha : isEmpty a = false) (hb : isEmpty b = false)
    (hra : getAttr a "regionIds" = JSValue.arr ia ra)
    (hrb : getAttr b "regionIds" = JSValue.arr ib rb) :
    fieldValueEqualSingle "address" a b =
      some (jsEq (getAttr a "address") (getAttr b "address")
        && (List.range ra.length).all fun i =>
             jsEq (ra.getD i .undef) (rb.getD i .undef)) := by
  unfold fieldValueEqualSingle
  rw [if_neg (by simp [ha, hb]), if_neg (by simp [ha, hb]),
    if_neg (by decide), if_neg (by decide), if_neg (by decide),
    if_neg (by decide), if_pos (by decide), hra, hrb]
  dsimp only
  rw [regionEvery_arr_eq]
  simp only [Nat.zero_add]

/-- Witness for C3 (amended): two concrete one-region records with the same
region and address come out equal. -/
theorem address_rule_amended_witness :
    fieldValueEqualSingle "address"
      (JSValue.obj 1 [("address", JSValue.str "1 Main St"),
        ("regionIds", JSValue.arr 2 [JSValue.str "9"])])
      (JSValue.obj 3 [("address", JSValue.str "1 Main St"),
        ("regionIds", JSValue.arr 4 [JSValue.str "9"])])
      = some (jsEq (getAttr (JSValue.obj 1 [("address", JSValue.str "1 Main St"),
            ("regionIds", JSValue.arr 2 [JSValue.str "9"])]) "address")
          (getAttr (JSValue.obj 3 [("address", JSValue.str "1 Main St"),
            ("regionIds", JSValue.arr 4 [JSValue.str "9"])]) "address")
        && (List.range ([JSValue.str "9"] : List JSValue).length).all fun i =>
             jsEq (([JSValue.str "9"] : List JSValue).getD i .undef)
               (([JSValue.str "9"] : List JSValue).getD i .undef)) :=
  address_rule_amended
    (JSValue.obj 1 [("address", JSValue.str "1 Main St"),
      ("regionIds", JSValue.arr 2 [JSValue.str "9"])])
    (JSValue.obj 3 [("address", JSValue.str "1 Main St"),
      ("regionIds", JSValue.arr 4 [JSValue.str "9"])])
    2 4 [JSValue.str "9"] [JSValue.str "9"] rfl rfl rfl rfl

/-- A field type that takes the array branch of `fieldValueDiff` is never
the literal `"address"` (whose data type is `"object"`). -/
theorem seqShaped_ne_address (t : String) (h : seqShaped t = true) :
    t ≠ "address" := by
  intro he
  subst he
  exact absurd h (by decide)

/-- On the array branch the element comparison never throws. -/
theorem eqSingle_ne_none_of_seqShaped (t : String) (h : seqShaped t = true)
    (x y : JSValue) : fieldValueEqualSingle t x y ≠ none := by
  intro hxy
  have hs := eqSingle_isSome_of_ne_address t (seqShaped_ne_address t h) x y
  rw [hxy] at hs
  exact Bool.noConfusion hs

/-- `Array.prototype.find` with a never-throwing predicate returns the first
element satisfying it, i.e. `List.find?` on "the predicate yields
`some true`". -/
theorem jsFind_eq_find? (p : JSValue → Option Bool) (l : List JSValue)
    (h : ∀ x ∈ l, p x ≠ none) :
    jsFind p l = some (l.find? fun x => p x == some true) := by
  induction l with
  | nil => rfl
  | cons x xs ih =>
    cases hp : p x with
    | none => exact absurd hp (h x (List.mem_cons_self x xs))
    | some b =>
      cases b with
      | true => simp [jsFind, List.find?, hp]
      | false =>
        have hrest := ih (fun y hy => h y (List.mem_cons_of_mem x hy))
        simp [jsFind, List.find?, hp, hrest]

/-- The `reduce`/`find` pass of `fieldValueDiff` keeps, in order, exactly
the elements of `source` whose first single-value-equal element of `target`
is absent or falsy (the `if (match)` test is on the truthiness of the found
element). -/
theorem diffPart_eq_filter (t : String) (src tgt : List JSValue)
    (h : ∀ x y : JSValue, fieldValueEqualSingle t x y ≠ none) :
    diffPart t src tgt = some (src.filter fun c =>
      !truthy ((tgt.find? fun y =>
        fieldValueEqualSingle t y c == some true).getD .undef)) := by
  induction src with
  | nil => rfl
  | cons c rest ih =>
    have hfind := jsFind_eq_find?
      (fun item => fieldValueEqualSingle t item c) tgt (fun x _ => h x c)
    simp only [diffPart, hfind, ih, List.filter_cons]
    cases htru : truthy ((tgt.find? fun y =>
        fieldValueEqualSingle t y c == some true).getD .undef) with
    | true => simp [htru]
    | false => simp [htru]

/-- Counterexample for C6: the coerced old sequence `[0]` contains an
element single-value-equal to the new element `0`, yet `0` is reported
added (and removed), because the `if (match)` test is on the truthiness of
the found element and `0` is falsy. -/
theorem added_membership_counterexample :
    fieldValueEqualSingle "checkbox" (JSValue.num 0) (JSValue.num 0)
      = some true ∧
    (fieldValueDiff "checkbox" (JSValue.arr 1 [JSValue.num 0])
        (JSValue.arr 2 [JSValue.num 0])).map
        (fun d => d.diff.map ArrayDiff.added)
      = some (some [JSValue.num 0]) :=
  ⟨rfl, rfl⟩

/-- C6 (amended): for every sequence-shaped field type, `added` consists, in
the order of the coerced new sequence, of exactly those elements whose first
single-value-equal element of the coerced old sequence is absent or falsy;
matching is non-consuming (a pure membership test against the old
sequence). -/
theorem added_is_first_match_filter (t : String) (h : seqShaped t = true)
    (n o : JSValue) :
    (fieldValueDiff t n o).map (fun d => d.diff.map ArrayDiff.added)
      = some (some ((coerceSeq n).filter fun c =>
          !truthy (((coerceSeq o).find? fun y =>
            fieldValueEqualSingle t y c == some true).getD .undef))) := by
  have hc : (getFieldDataTypeById t false == some "array" || t == "employee")
      = true := h
  have htot := eqSingle_ne_none_of_seqShaped t h
  unfold fieldValueDiff
  rw [if_pos hc]
  dsimp only
  rw [diffPart_eq_filter t (coerceSeq n) (coerceSeq o) htot,
    diffPart_eq_filter t (coerceSeq o) (coerceSeq n) htot]
  rfl

/-- Witness for C6 (amended): duplicates in the new sequence each
independently match the single truthy old element, so nothing is added. -/
theorem added_is_first_match_filter_witness :
    (fieldValueDiff "checkbox"
        (JSValue.arr 1 [JSValue.str "b", JSValue.str "b"])
        (JSValue.arr 2 [JSValue.str "b"])).map
        (fun d => d.diff.map ArrayDiff.added)
      = some (some []) :=
  (added_is_first_match_filter "checkbox" rfl
    (JSValue.arr 1 [JSValue.str "b", JSValue.str "b"])
    (JSValue.arr 2 [JSValue.str "b"])).trans rfl

/-- C7: for every sequence-shaped field type, the `added` list of
`fieldValueDiff t a b` is the `removed` list of `fieldValueDiff t b a` and
vice versa — the two passes compute the same two set differences with the
roles swapped. -/
theorem added_removed_symmetry (t : String) (h : seqShaped t = true)
    (a b : JSValue) :
    ((fieldValueDiff t a b).map (fun d => d.diff.map ArrayDiff.added)
      = (fieldValueDiff t b a).map (fun d => d.diff.map ArrayDiff.removed)) ∧
    ((fieldValueDiff t a b).map (fun d => d.diff.map ArrayDiff.removed)
      = (fieldValueDiff t b a).map (fun d => d.diff.map ArrayDiff.added)) := by
  have hc : (getFieldDataTypeById t false == some "array" || t == "employee")
      = true := h
  unfold fieldValueDiff
  rw [if_pos hc, if_pos hc]
  rcases h1 : diffPart t (coerceSeq a) (coerceSeq b) with - | added <;>
    rcases h2 : diffPart t (coerceSeq b) (coerceSeq a) with - | removed <;>
      simp [h1, h2]

/-- Witness for C7 at concrete checkbox values. -/
theorem added_removed_symmetry_witness :
    ((fieldValueDiff "checkbox" (JSValue.arr 1 [JSValue.str "a"])
        (JSValue.arr 2 [JSValue.str "c"])).map
        (fun d => d.diff.map ArrayDiff.added)
      = (fieldValueDiff "checkbox" (JSValue.arr 2 [JSValue.str "c"])
          (JSValue.arr 1 [JSValue.str "a"])).map
          (fun d => d.diff.map ArrayDiff.removed)) ∧
    ((fieldValueDiff "checkbox" (JSValue.arr 1 [JSValue.str "a"])
        (JSValue.arr 2 [JSValue.str "c"])).map
        (fun d => d.diff.map ArrayDiff.removed)
      = (fieldValueDiff "checkbox" (JSValue.arr 2 [JSValue.str "c"])
          (JSValue.arr 1 [JSValue.str "a"])).map
          (fun d => d.diff.map ArrayDiff.added)) :=
  added_removed_symmetry "checkbox" rfl (JSValue.arr 1 [JSValue.str "a"])
    (JSValue.arr 2 [JSValue.str "c"])

/-- C8: on the array branch the result always carries a `diff`, and
`isEqual` is true exactly when both `added` and `removed` are empty. -/
theorem diff_isEqual_iff_empty (t : String) (h : seqShaped t = true)
    (a b : JSValue) (d : DiffResult) (hd : fieldValueDiff t a b = some d) :
    ∃ ad, d.diff = some ad ∧
      (d.isEqual = true ↔ (ad.added = [] ∧ ad.removed = [])) := by
  have hc : (getFieldDataTypeById t false == some "array" || t == "employee")
      = true := h
  unfold fieldValueDiff at hd
  rw [if_pos hc] at hd
  dsimp only at hd
  rcases h1 : diffPart t (coerceSeq a) (coerceSeq b) with - | added
  · rw [h1] at hd
    simp at hd
  rcases h2 : diffPart t (coerceSeq b) (coerceSeq a) with - | removed
  · rw [h1, h2] at hd
    simp at hd
  rw [h1, h2] at hd
  dsimp only at hd
  injection hd with h3
  subst h3
  refine ⟨⟨added, removed⟩, rfl, ?_⟩
  simp [List.length_eq_zero]

/-- Witness for C8 at concrete checkbox values. -/
theorem diff_isEqual_iff_empty_witness :
    ∃ ad, (DiffResult.mk (JSValue.arr 1 [JSValue.str "a"])
        (JSValue.arr 2 [JSValue.str "a"]) true
        (some (ArrayDiff.mk [] []))).diff = some ad ∧
      ((DiffResult.mk (JSValue.arr 1 [JSValue.str "a"])
          (JSValue.arr 2 [JSValue.str "a"]) true
          (some (ArrayDiff.mk [] []))).isEqual = true ↔
        (ad.added = [] ∧ ad.removed = [])) :=
  diff_isEqual_iff_empty "checkbox" rfl (JSValue.arr 1 [JSValue.str "a"])
    (JSValue.arr 2 [JSValue.str "a"]) _ rfl

/-- Counterexample for C5: the bare non-sequence value `0` is present and
not null, yet it is coerced to the empty sequence (the `val || []` test is
on truthiness, not on presence), so nothing is reported added. -/
theorem coerce_counterexample :
    coerceSeq (JSValue.num 0) = [] ∧
    fieldValueDiff "checkbox" (JSValue.num 0) (JSValue.arr 1 [JSValue.str "a"])
      = some { new := JSValue.num 0, old := JSValue.arr 1 [JSValue.str "a"],
               isEqual := false,
               diff := some ⟨[], [JSValue.str "a"]⟩ } :=
  ⟨rfl, rfl⟩

/-- C5 (amended): the coercion maps every falsy input (absent, null, NaN,
`0`, `false`, the empty string) to the empty sequence, keeps the elements of
a sequence input, and wraps any other (truthy non-sequence) value as a
one-element sequence. -/
theorem coerce_amended (v : JSValue) :
    (truthy v = false → coerceSeq v = []) ∧
    (∀ r xs, v = JSValue.arr r xs → coerceSeq v = xs) ∧
    (truthy v = true → (∀ r xs, v ≠ JSValue.arr r xs) → coerceSeq v = [v]) := by
  refine ⟨fun hf => ?_, fun r xs he => ?_, fun ht hn => ?_⟩
  · simp [coerceSeq, hf]
  · subst he
    simp [coerceSeq, truthy]
  · unfold coerceSeq
    rw [if_pos ht]
    cases v with
    | arr r xs => exact absurd rfl (hn r xs)
    | undef => rfl
    | null => rfl
    | nan => rfl
    | num n => rfl
    | str s => rfl
    | bool b => rfl
    | obj r kvs => rfl

/-- Witness for C5 (amended): a truthy bare number is wrapped as a
one-element sequence. -/
theorem coerce_amended_witness :
    coerceSeq (JSValue.num 42) = [JSValue.num 42] :=
  (coerce_amended (JSValue.num 42)).2.2 rfl (fun _ _ h => nomatch h)

/-- Counterexample for C2: diffing the sequence `[0]` against itself is not
reported equal — the matching old element `0` is falsy, so the truthiness
test on the found element discards the match. -/
theorem diff_idempotence_counterexample :
    (fieldValueDiff "checkbox" (JSValue.arr 5 [JSValue.num 0])
        (JSValue.arr 5 [JSValue.num 0])).map DiffResult.isEqual
      = some false :=
  rfl

/-- C2 (amended): `fieldValueDiff t a a` yields `isEqual = true` with empty
`added`/`removed` provided the single-value comparison is reflexive at `a`
(it is not when NaN sits in a compared attribute, or `a` is an address
record with non-sequence `regionIds`) and every element of the coerced
sequence of `a` is truthy and self-equal (falsy elements such as `0`, `""`
or `false` break idempotence). -/
theorem diff_idempotence_amended (t : String) (a : JSValue)
    (hself : fieldValueEqualSingle t a a = some true)
    (helem : ∀ x ∈ coerceSeq a, truthy x = true ∧
      fieldValueEqualSingle t x x = some true) :
    ∃ d, fieldValueDiff t a a = some d ∧ d.isEqual = true ∧
      ∀ ad, d.diff = some ad → ad.added = [] ∧ ad.removed = [] := by
  by_cases hc : (getFieldDataTypeById t false == some "array"
      || t == "employee") = true
  · have htot : ∀ x y : JSValue, fieldValueEqualSingle t x y ≠ none :=
      eqSingle_ne_none_of_seqShaped t hc
    have hfil : ((coerceSeq a).filter fun c =>
        !truthy (((coerceSeq a).find? fun y =>
          fieldValueEqualSingle t y c == some true).getD .undef)) = [] := by
      rw [List.filter_eq_nil_iff]
      intro c hcmem
      have hex : ∃ y, (coerceSeq a).find? (fun y =>
          fieldValueEqualSingle t y c == some true) = some y := by
        apply Option.isSome_iff_exists.mp
        apply List.find?_isSome.mpr
        exact ⟨c, hcmem, by simp [(helem c hcmem).2]⟩
      rcases hex with ⟨y, hy⟩
      have hyt := (helem y (List.mem_of_find?_eq_some hy)).1
      simp [hy, hyt]
    unfold fieldValueDiff
    rw [if_pos hc]
    dsimp only
    rw [diffPart_eq_filter t (coerceSeq a) (coerceSeq a) htot, hfil]
    refine ⟨{ new := a, old := a, isEqual := true, diff := some ⟨[], []⟩ },
      rfl, rfl, ?_⟩
    intro ad had
    injection had with h4
    subst h4
    exact ⟨rfl, rfl⟩
  · unfold fieldValueDiff
    rw [if_neg hc]
    rw [hself]
    exact ⟨_, rfl, rfl, fun ad had => nomatch had⟩

/-- Witness for C2 (amended): a one-element truthy checkbox sequence diffed
against itself is equal with empty `added`/`removed`. -/
theorem diff_idempotence_amended_witness :
    ∃ d, fieldValueDiff "checkbox" (JSValue.arr 1 [JSValue.str "a"])
        (JSValue.arr 1 [JSValue.str "a"]) = some d ∧ d.isEqual = true ∧
      ∀ ad, d.diff = some ad → ad.added = [] ∧ ad.removed = [] :=
  diff_idempotence_amended "checkbox" (JSValue.arr 1 [JSValue.str "a"]) rfl
    (by
      intro x hx
      rw [show coerceSeq (JSValue.arr 1 [JSValue.str "a"])
          = [JSValue.str "a"] from rfl] at hx
      rw [List.mem_singleton] at hx
      subst hx
      exact ⟨rfl, rfl⟩)
